import Mathlib

/-!
Verification of the geodesics repository (Yachim/geodesics).

The numerical core of the repository is shallowly embedded here.  JavaScript
`number` arithmetic is idealised as exact arithmetic over a carrier type `α`
(instantiated at `ℚ` for the real-arithmetic claims, and at `RF`, rationals
extended with a NaN element, for the NaN-propagation claims).  Every
definition is translated directly from the source files:

* namespace `MathTs`   — `src/utils/math.ts` (current version): finite
  differences, tangent bases, metric, inverse metric, extrinsic Christoffel
  symbols, geodesic Euler / RK4 / dispatching steppers, and the
  spec-modelled batch solver with a length cap (the current `solveGeodesic`
  called from `App.tsx` is not present under `src/`, only its caller is).
* namespace `LegacyTs` — the legacy math section concatenated into
  `src/utils/functions.ts` (lines 249-429): its own metric, intrinsic
  (metric-derivative) Christoffel symbols, and the legacy batch solver
  `solveGeodesic` (lines 368-390).
-/

/-- Carrier constants: embeds the numeric literals of the source
(`0.0001`, `0.5`, `2`, `6`, `1`) into the carrier type. -/
class QLit (α : Type) where
  ofQ : ℚ → α

instance : QLit ℚ := ⟨id⟩

/-- three.js `Vector3` as used by the core: a triple of numbers. -/
structure Vec3 (α : Type) where
  x : α
  y : α
  z : α
deriving DecidableEq

/-- Embeds `Vector3.prototype.dot`. -/
def Vec3.dot {α : Type} [Add α] [Mul α] (a b : Vec3 α) : α :=
  a.x * b.x + a.y * b.y + a.z * b.z

/-- The source's `Matrix2` type `[[number, number], [number, number]]`;
`eIJ` is entry `[i][j]`. -/
structure Mat2 (α : Type) where
  e00 : α
  e01 : α
  e10 : α
  e11 : α
deriving DecidableEq

namespace MathTs

variable {α : Type} [Add α] [Sub α] [Mul α] [Div α] [Neg α] [QLit α]

/-- Embeds `const diffDelta = 0.0001` — h in derivative. -/
def diffDelta : α := QLit.ofQ (1/10000)

/-- Source `diff`: returns `f'(x)` by forward difference. -/
def diff (f : α → α) (val : α) : α :=
  (f (val + diffDelta) - f val) / diffDelta

/-- Source `diffWrtU`: returns `df/du (u, v)`. -/
def diffWrtU (f : α → α → α) (u v : α) : α :=
  diff (fun u_ => f u_ v) u

/-- Source `diffVec3WrtU`. -/
def diffVec3WrtU (f : α → α → Vec3 α) (u v : α) : Vec3 α :=
  Vec3.mk
    (diffWrtU (fun u_ v_ => (f u_ v_).x) u v)
    (diffWrtU (fun u_ v_ => (f u_ v_).y) u v)
    (diffWrtU (fun u_ v_ => (f u_ v_).z) u v)

/-- Source `diffWrtV`: returns `df/dv (u, v)`. -/
def diffWrtV (f : α → α → α) (u v : α) : α :=
  diff (fun v_ => f u v_) v

/-- Source `diffVec3WrtV`. -/
def diffVec3WrtV (f : α → α → Vec3 α) (u v : α) : Vec3 α :=
  Vec3.mk
    (diffWrtV (fun u_ v_ => (f u_ v_).x) u v)
    (diffWrtV (fun u_ v_ => (f u_ v_).y) u v)
    (diffWrtV (fun u_ v_ => (f u_ v_).z) u v)

/-- Source `uBase`: tangent basis vector along u. -/
def uBase (surface : α → α → Vec3 α) (u v : α) : Vec3 α :=
  diffVec3WrtU surface u v

/-- Source `vBase`: tangent basis vector along v. -/
def vBase (surface : α → α → Vec3 α) (u v : α) : Vec3 α :=
  diffVec3WrtV surface u v

/-- Source `metric` (math.ts): `g[i, j] = g[j, i]`, dot products of the bases. -/
def metric (surface : α → α → Vec3 α) (u v : α) : Mat2 α :=
  let eu := uBase surface u v
  let ev := vBase surface u v
  let uu := eu.dot eu
  let uv := eu.dot ev
  let vv := ev.dot ev
  Mat2.mk uu uv uv vv

/-- Source `inverseMetric`: analytic 2x2 inverse via `detReciprocal = 1 / det`. -/
def inverseMetric (g : Mat2 α) : Mat2 α :=
  let uu := g.e00
  let uv := g.e01
  let vv := g.e11
  let det := uu * vv - uv * uv
  let detReciprocal := QLit.ofQ 1 / det
  Mat2.mk (detReciprocal * vv) ((-detReciprocal) * uv)
    ((-detReciprocal) * uv) (detReciprocal * uu)

/-- Source `normSquared`: squared metric norm of the vector `[uVel, vVel]`. -/
def normSquared (surface : α → α → Vec3 α) (u v uVel vVel : α) : α :=
  let lg := metric surface u v
  let uu := lg.e00
  let uv := lg.e01
  let vv := lg.e11
  uu * (uVel * uVel) + QLit.ofQ 2 * uv * uVel * vVel + vv * (vVel * vVel)

/-- Source `christoffelSymbolsFirstKind` (math.ts, extrinsic definition):
`Γ[k, i, j] = Γ[k, j, i]`; first component is `Γ[u,·,·]`, second `Γ[v,·,·]`. -/
def christoffelSymbolsFirstKind (surface : α → α → Vec3 α) (u v : α) :
    Mat2 α × Mat2 α :=
  let u_u := diffVec3WrtU (fun u_ v_ => uBase surface u_ v_) u v
  let u_v := diffVec3WrtV (fun u_ v_ => uBase surface u_ v_) u v
  let v_v := diffVec3WrtV (fun u_ v_ => vBase surface u_ v_) u v
  let eu := uBase surface u v
  let ev := vBase surface u v
  let uuu := u_u.dot eu
  let vuu := u_u.dot ev
  let uuv := u_v.dot eu
  let vuv := u_v.dot ev
  let uvv := v_v.dot eu
  let vvv := v_v.dot ev
  (Mat2.mk uuu uuv uuv uvv, Mat2.mk vuu vuv vuv vvv)

/-- Source `christoffelSymbolsSecondKind` (math.ts): raises the first index with
the inverse metric, expanded entrywise exactly as in the source. -/
def christoffelSymbolsSecondKind (surface : α → α → Vec3 α) (u v : α) :
    Mat2 α × Mat2 α :=
  let lg := metric surface u v
  let ug := inverseMetric lg
  let csf := christoffelSymbolsFirstKind surface u v
  (Mat2.mk
    (ug.e00 * csf.1.e00 + ug.e01 * csf.2.e00)
    (ug.e00 * csf.1.e01 + ug.e01 * csf.2.e01)
    (ug.e00 * csf.1.e01 + ug.e01 * csf.2.e01)
    (ug.e00 * csf.1.e11 + ug.e01 * csf.2.e11),
   Mat2.mk
    (ug.e10 * csf.1.e00 + ug.e11 * csf.2.e00)
    (ug.e10 * csf.1.e01 + ug.e11 * csf.2.e01)
    (ug.e10 * csf.1.e01 + ug.e11 * csf.2.e01)
    (ug.e10 * csf.1.e11 + ug.e11 * csf.2.e11))

/-- Source `geodesicEquation`: returns the pair of accelerations. -/
def geodesicEquation (surface : α → α → Vec3 α) (u v uVel vVel : α) : α × α :=
  let css := christoffelSymbolsSecondKind surface u v
  (-(css.1.e00 * uVel * uVel + QLit.ofQ 2 * css.1.e01 * uVel * vVel +
      css.1.e11 * vVel * vVel),
   -(css.2.e00 * uVel * uVel + QLit.ofQ 2 * css.2.e01 * uVel * vVel +
      css.2.e11 * vVel * vVel))

/-- Source `geodesicEulerStep`: explicit Euler step of the geodesic ODE;
returns `[[newU, newV], [newUVel, newVVel]]`. -/
def geodesicEulerStep (surface : α → α → Vec3 α) (u v uVel vVel dt : α) :
    (α × α) × (α × α) :=
  let newU := u + uVel * dt
  let newV := v + vVel * dt
  let acc := geodesicEquation surface u v uVel vVel
  ((newU, newV), (uVel + acc.1 * dt, vVel + acc.2 * dt))

/-- Source `geodesicRK4Step`: classical RK4 step of the coupled first-order system. -/
def geodesicRK4Step (surface : α → α → Vec3 α) (u v uVel vVel dt : α) :
    (α × α) × (α × α) :=
  let k1 : α × α := (uVel, vVel)
  let l1 := geodesicEquation surface u v uVel vVel
  let k2 : α × α :=
    (uVel + QLit.ofQ (1/2) * dt * l1.1, vVel + QLit.ofQ (1/2) * dt * l1.2)
  let l2 := geodesicEquation surface
    (u + QLit.ofQ (1/2) * dt * k1.1) (v + QLit.ofQ (1/2) * dt * k1.2)
    (uVel + QLit.ofQ (1/2) * dt * l1.1) (vVel + QLit.ofQ (1/2) * dt * l1.2)
  let k3 : α × α :=
    (uVel + QLit.ofQ (1/2) * dt * l2.1, vVel + QLit.ofQ (1/2) * dt * l2.2)
  let l3 := geodesicEquation surface
    (u + QLit.ofQ (1/2) * dt * k2.1) (v + QLit.ofQ (1/2) * dt * k2.2)
    (uVel + QLit.ofQ (1/2) * dt * l2.1) (vVel + QLit.ofQ (1/2) * dt * l2.2)
  let k4 : α × α := (uVel + dt * l3.1, vVel + dt * l3.2)
  let l4 := geodesicEquation surface
    (u + dt * k3.1) (v + dt * k3.2)
    (uVel + dt * l3.1) (vVel + dt * l3.2)
  ((u + dt / QLit.ofQ 6 * (k1.1 + QLit.ofQ 2 * k2.1 + QLit.ofQ 2 * k3.1 + k4.1),
    v + dt / QLit.ofQ 6 * (k1.2 + QLit.ofQ 2 * k2.2 + QLit.ofQ 2 * k3.2 + k4.2)),
   (uVel + dt / QLit.ofQ 6 * (l1.1 + QLit.ofQ 2 * l2.1 + QLit.ofQ 2 * l3.1 + l4.1),
    vVel + dt / QLit.ofQ 6 * (l1.2 + QLit.ofQ 2 * l2.2 + QLit.ofQ 2 * l3.2 + l4.2)))

end MathTs

/-- Embeds `type Solver = "rk" | "euler"`. -/
inductive Solver where
  | rk : Solver
  | euler : Solver
deriving DecidableEq

namespace MathTs

variable {α : Type} [Add α] [Sub α] [Mul α] [Div α] [Neg α] [QLit α]

/-- Source `geodesicStep`: dispatches on the solver selector. -/
def geodesicStep (surface : α → α → Vec3 α) (u v uVel vVel dt : α)
    (solver : Solver) : (α × α) × (α × α) :=
  match solver with
  | Solver.rk => geodesicRK4Step surface u v uVel vVel dt
  | Solver.euler => geodesicEulerStep surface u v uVel vVel dt

end MathTs

namespace LegacyTs

variable {α : Type} [Add α] [Sub α] [Mul α] [Div α] [Neg α] [QLit α]

/-- Source `metric` of the legacy math section in `src/utils/functions.ts`
(lines 291-300): every entry recomputes the basis by finite differences.
The `diff` helpers of that file are textually identical to the ones in
`math.ts`, so `MathTs.diffVec3WrtU`/`WrtV` are reused. -/
def metric (surface : α → α → Vec3 α) (u v : α) : Mat2 α :=
  let uu := (MathTs.diffVec3WrtU surface u v).dot (MathTs.diffVec3WrtU surface u v)
  let uv := (MathTs.diffVec3WrtU surface u v).dot (MathTs.diffVec3WrtV surface u v)
  let vv := (MathTs.diffVec3WrtV surface u v).dot (MathTs.diffVec3WrtV surface u v)
  Mat2.mk uu uv uv vv

/-- Source `christoffelSymbolsFirstKind` of the legacy math section (functions.ts
lines 319-346): intrinsic formulation from metric derivatives. -/
def christoffelSymbolsFirstKind (surface : α → α → Vec3 α) (u v : α) :
    Mat2 α × Mat2 α :=
  let uu_u := MathTs.diffWrtU (fun u_ v_ => (metric surface u_ v_).e00) u v
  let uu_v := MathTs.diffWrtV (fun u_ v_ => (metric surface u_ v_).e00) u v
  let uv_u := MathTs.diffWrtU (fun u_ v_ => (metric surface u_ v_).e01) u v
  let uv_v := MathTs.diffWrtV (fun u_ v_ => (metric surface u_ v_).e01) u v
  let vv_u := MathTs.diffWrtU (fun u_ v_ => (metric surface u_ v_).e11) u v
  let vv_v := MathTs.diffWrtV (fun u_ v_ => (metric surface u_ v_).e11) u v
  let uuu := uu_u / QLit.ofQ 2
  let uuv := uu_v / QLit.ofQ 2
  let uvv := (QLit.ofQ 2 * uv_v - vv_u) / QLit.ofQ 2
  let vuu := (QLit.ofQ 2 * uv_u - uu_v) / QLit.ofQ 2
  let vuv := vv_u / QLit.ofQ 2
  let vvv := vv_v / QLit.ofQ 2
  (Mat2.mk uuu uuv uuv uvv, Mat2.mk vuu vuv vuv vvv)

/-- Source `christoffelSymbolsSecondKind` of the legacy math section (functions.ts
lines 350-366). -/
def christoffelSymbolsSecondKind (surface : α → α → Vec3 α) (u v : α) :
    Mat2 α × Mat2 α :=
  let lg := metric surface u v
  let ug := MathTs.inverseMetric lg
  let csf := christoffelSymbolsFirstKind surface u v
  (Mat2.mk
    (ug.e00 * csf.1.e00 + ug.e01 * csf.2.e00)
    (ug.e00 * csf.1.e01 + ug.e01 * csf.2.e01)
    (ug.e00 * csf.1.e01 + ug.e01 * csf.2.e01)
    (ug.e00 * csf.1.e11 + ug.e01 * csf.2.e11),
   Mat2.mk
    (ug.e10 * csf.1.e00 + ug.e11 * csf.2.e00)
    (ug.e10 * csf.1.e01 + ug.e11 * csf.2.e01)
    (ug.e10 * csf.1.e01 + ug.e11 * csf.2.e01)
    (ug.e10 * csf.1.e11 + ug.e11 * csf.2.e11))

/-- Loop body of the legacy `solveGeodesic` (functions.ts lines 374-387),
unrolled as structural recursion over the remaining iteration count.  The
first two explicit `α` arguments after `surface` are the *initial* `u`, `v`
of the enclosing `solveGeodesic` call: faithfully to the source, the
Christoffel symbols are evaluated at that fixed initial point on every
iteration (the loop reads `christoffelSymbolsSecondKind(surface, u, v)`,
not `(surface, prevU, prevV)`). -/
def solveGeodesicAux (surface : α → α → Vec3 α) (u v dt : α) :
    α → α → α → α → ℕ → List (α × α)
  | _, _, _, _, 0 => []
  | prevU, prevV, prevUVel, prevVVel, Nat.succ n =>
    let css := christoffelSymbolsSecondKind surface u v
    let newUVel :=
      (-(css.1.e00 * (prevUVel * prevUVel) + QLit.ofQ 2 * css.1.e01 * prevUVel * prevVVel +
          css.1.e11 * (prevVVel * prevVVel))) * dt + prevUVel
    let newVVel :=
      (-(css.2.e00 * (prevUVel * prevUVel) + QLit.ofQ 2 * css.2.e01 * prevUVel * prevVVel +
          css.2.e11 * (prevVVel * prevVVel))) * dt + prevVVel
    let newU := prevU + prevUVel * dt
    let newV := prevV + prevVVel * dt
    (newU, newV) :: solveGeodesicAux surface u v dt newU newV newUVel newVVel n

/-- Source `solveGeodesic` (functions.ts lines 368-390): starts the path at
`[u, v]` and pushes one new point per loop iteration. -/
def solveGeodesic (surface : α → α → Vec3 α) (u v uVel vVel dt : α)
    (nSteps : ℕ) : List (α × α) :=
  (u, v) :: solveGeodesicAux surface u v dt u v uVel vVel nSteps

end LegacyTs

namespace MathTs

/-- The spec's per-step metric-weighted length
`sqrt(g_uu·Δu² + 2·g_uv·Δu·Δv + g_vv·Δv²)` between two consecutive path
points: metric at the pre-step point `p`, displacement `q - p`.  `sqrtFn`
stands for `Math.sqrt` (over the exact-rational carrier the square root is
kept abstract). -/
def stepLen (surface : ℚ → ℚ → Vec3 ℚ) (sqrtFn : ℚ → ℚ) (p q : ℚ × ℚ) : ℚ :=
  let g := metric surface p.1 p.2
  let du := q.1 - p.1
  let dv := q.2 - p.2
  sqrtFn (g.e00 * du * du + 2 * g.e01 * du * dv + g.e11 * dv * dv)

/-- The list of metric-weighted step lengths of a path starting at `p`. -/
def stepLens (surface : ℚ → ℚ → Vec3 ℚ) (sqrtFn : ℚ → ℚ) :
    ℚ × ℚ → List (ℚ × ℚ) → List ℚ
  | _, [] => []
  | p, q :: rest => stepLen surface sqrtFn p q :: stepLens surface sqrtFn q rest

/-- Modelled from the spec: the current `solveGeodesic` of
`src/utils/math.ts` — the 8-argument batch solver that `App.tsx` calls as
`solveGeodesic(parametricSurface, startU, startV, uVel, vVel, step, nSteps,
maxLength)` — is not present under `src/` (only its caller is).  Following
the spec's words (§4.5): repeatedly apply the Euler step; each step's
metric-weighted length (`stepLen`) uses the metric at the pre-step point;
iteration halts when the step count is exhausted or the accumulated length
reaches the cap, with the step that reaches the cap still appended; a cap
of exactly 0 disables the length check. -/
def solveGeodesicCapAux (surface : ℚ → ℚ → Vec3 ℚ) (sqrtFn : ℚ → ℚ)
    (dt maxLength : ℚ) : ℚ → ℚ → ℚ → ℚ → ℚ → ℕ → List (ℚ × ℚ)
  | _, _, _, _, _, 0 => []
  | u, v, uVel, vVel, acc, Nat.succ n =>
    let s := geodesicEulerStep surface u v uVel vVel dt
    let len := stepLen surface sqrtFn (u, v) s.1
    let acc2 := acc + len
    s.1 ::
      (if maxLength ≠ 0 ∧ maxLength ≤ acc2 then []
       else solveGeodesicCapAux surface sqrtFn dt maxLength s.1.1 s.1.2 s.2.1 s.2.2 acc2 n)

/-- Modelled from the spec (see `solveGeodesicCapAux`): the full path,
including the starting point, of the bounded-length batch solve. -/
def solveGeodesicCap (surface : ℚ → ℚ → Vec3 ℚ) (sqrtFn : ℚ → ℚ)
    (u v uVel vVel dt : ℚ) (nSteps : ℕ) (maxLength : ℚ) : List (ℚ × ℚ) :=
  (u, v) :: solveGeodesicCapAux surface sqrtFn dt maxLength u v uVel vVel 0 nSteps

end MathTs

/-- Rationals extended with the IEEE-754 `NaN` element: the carrier used to
state the NaN-propagation claims.  Finite values compute exactly; any
operation touching `nan` yields `nan`.  Overflow to infinity is not
modelled. -/
inductive RF where
  | nan : RF
  | fin : ℚ → RF
deriving DecidableEq

namespace RF

/-- IEEE addition restricted to finite-or-NaN values. -/
def add : RF → RF → RF
  | fin a, fin b => fin (a + b)
  | _, _ => nan

/-- IEEE subtraction. -/
def sub : RF → RF → RF
  | fin a, fin b => fin (a - b)
  | _, _ => nan

/-- IEEE multiplication (without the 0·∞ cases, as infinities are not
modelled). -/
def mul : RF → RF → RF
  | fin a, fin b => fin (a * b)
  | _, _ => nan

/-- IEEE division; division by zero is collapsed to `nan` (the source never
relies on signed infinities). -/
def div : RF → RF → RF
  | fin a, fin b => if b = 0 then nan else fin (a / b)
  | _, _ => nan

/-- IEEE negation. -/
def neg : RF → RF
  | fin a => fin (-a)
  | nan => nan

instance : Add RF := ⟨add⟩

instance : Sub RF := ⟨sub⟩

instance : Mul RF := ⟨mul⟩

instance : Div RF := ⟨div⟩

instance : Neg RF := ⟨neg⟩

instance : QLit RF := ⟨fin⟩

/-- Whether an `RF` value is finite (not `NaN`). -/
def finite : RF → Bool
  | nan => false
  | fin _ => true

end RF

/-- The all-NaN sentinel position returned by a failing surface function. -/
def nanVec3 : Vec3 RF := Vec3.mk RF.nan RF.nan RF.nan

/-- A surface function that returns the NaN sentinel at every point. -/
def nanSurf : RF → RF → Vec3 RF := fun _ _ => nanVec3

/-- The 2x2 matrix with every entry NaN. -/
def nanMat2 : Mat2 RF := Mat2.mk RF.nan RF.nan RF.nan RF.nan

/-- Whether every entry of a matrix of `RF` values is finite. -/
def Mat2.allFinite (m : Mat2 RF) : Bool :=
  m.e00.finite && m.e01.finite && m.e10.finite && m.e11.finite

/-- Whether every Christoffel-symbol entry is finite. -/
def csAllFinite (c : Mat2 RF × Mat2 RF) : Bool :=
  c.1.allFinite && c.2.allFinite

/-- Claim-side definition: the orbit obtained by iterating
`MathTs.geodesicEulerStep` `nSteps` times from the initial state,
recording the position of every state (the path C1 says `solveGeodesic`
returns). -/
def eulerOrbit {α : Type} [Add α] [Sub α] [Mul α] [Div α] [Neg α] [QLit α]
    (surface : α → α → Vec3 α) : α → α → α → α → α → ℕ → List (α × α)
  | u, v, _, _, _, 0 => [(u, v)]
  | u, v, uVel, vVel, dt, Nat.succ n =>
    (u, v) ::
      (let s := MathTs.geodesicEulerStep surface u v uVel vVel dt
       eulerOrbit surface s.1.1 s.1.2 s.2.1 s.2.2 dt n)

/-- Claim-side test surface for C1: `(u, v) ↦ (u, u·v, v)`, whose
Christoffel symbols vary from point to point. -/
def twistSurf : ℚ → ℚ → Vec3 ℚ := fun u v => Vec3.mk u (u * v) v

/-- Claim-side test surface for C3 and C9: the flat plane
`(u, v) ↦ (u, c, v)` with constant height `c`. -/
def planeSurf {α : Type} (c : α) : α → α → Vec3 α := fun u v => Vec3.mk u c v

/-- Claim-side definition for C5: 2x2 matrix product. -/
def mat2Mul {α : Type} [Add α] [Mul α] (a b : Mat2 α) : Mat2 α :=
  Mat2.mk
    (a.e00 * b.e00 + a.e01 * b.e10) (a.e00 * b.e01 + a.e01 * b.e11)
    (a.e10 * b.e00 + a.e11 * b.e10) (a.e10 * b.e01 + a.e11 * b.e11)

/-- Claim-side definition for C5: the 2x2 identity matrix over `ℚ`. -/
def mat2Id : Mat2 ℚ := Mat2.mk 1 0 0 1

/-- Claim-side pair addition for the C7 RK4 staging. -/
def p2add {α : Type} [Add α] (a b : α × α) : α × α := (a.1 + b.1, a.2 + b.2)

/-- Claim-side scalar multiple of a pair for the C7 RK4 staging. -/
def p2smul {α : Type} [Mul α] (c : α) (a : α × α) : α × α := (c * a.1, c * a.2)

/-- Claim-side definition for C7, following the claim's words: the standard
RK4 update of the coupled system `dx/dt = w`, `dw/dt = a(x, w)` with
`a` the geodesic acceleration, staged as
`k1 = w, l1 = a(x, w); k2 = w + (dt/2)·l1, l2 = a(x + (dt/2)·k1, w + (dt/2)·l1);
k3 = w + (dt/2)·l2, l3 = a(x + (dt/2)·k2, w + (dt/2)·l2);
k4 = w + dt·l3, l4 = a(x + dt·k3, w + dt·l3)`, returning
`x + (dt/6)·(k1 + 2k2 + 2k3 + k4)` and `w + (dt/6)·(l1 + 2l2 + 2l3 + l4)`;
it makes exactly four `geodesicEquation` (acceleration) evaluations. -/
def rk4SpecStep (surface : ℚ → ℚ → Vec3 ℚ) (x w : ℚ × ℚ) (dt : ℚ) :
    (ℚ × ℚ) × (ℚ × ℚ) :=
  let a := fun (p q : ℚ × ℚ) => MathTs.geodesicEquation surface p.1 p.2 q.1 q.2
  let k1 := w
  let l1 := a x w
  let k2 := p2add w (p2smul (dt / 2) l1)
  let l2 := a (p2add x (p2smul (dt / 2) k1)) (p2add w (p2smul (dt / 2) l1))
  let k3 := p2add w (p2smul (dt / 2) l2)
  let l3 := a (p2add x (p2smul (dt / 2) k2)) (p2add w (p2smul (dt / 2) l2))
  let k4 := p2add w (p2smul dt l3)
  let l4 := a (p2add x (p2smul dt k3)) (p2add w (p2smul dt l3))
  (p2add x (p2smul (dt / 6)
     (p2add (p2add k1 (p2smul 2 k2)) (p2add (p2smul 2 k3) k4))),
   p2add w (p2smul (dt / 6)
     (p2add (p2add l1 (p2smul 2 l2)) (p2add (p2smul 2 l3) l4))))

/-! ## Helper lemmas -/

@[simp] theorem QLit.ofQ_rat (q : ℚ) : (QLit.ofQ q : ℚ) = q := rfl

@[simp] theorem QLit.ofQ_rf (q : ℚ) : (QLit.ofQ q : RF) = RF.fin q := rfl

@[simp] theorem RF.fin_add_fin (a b : ℚ) : RF.fin a + RF.fin b = RF.fin (a + b) := rfl

@[simp] theorem RF.nan_add (x : RF) : RF.nan + x = RF.nan := rfl

@[simp] theorem RF.add_nan (x : RF) : x + RF.nan = RF.nan := by cases x <;> rfl

@[simp] theorem RF.fin_sub_fin (a b : ℚ) : RF.fin a - RF.fin b = RF.fin (a - b) := rfl

@[simp] theorem RF.nan_sub (x : RF) : RF.nan - x = RF.nan := rfl

@[simp] theorem RF.sub_nan (x : RF) : x - RF.nan = RF.nan := by cases x <;> rfl

@[simp] theorem RF.fin_mul_fin (a b : ℚ) : RF.fin a * RF.fin b = RF.fin (a * b) := rfl

@[simp] theorem RF.nan_mul (x : RF) : RF.nan * x = RF.nan := rfl

@[simp] theorem RF.mul_nan (x : RF) : x * RF.nan = RF.nan := by cases x <;> rfl

@[simp] theorem RF.fin_div_fin (a b : ℚ) :
    RF.fin a / RF.fin b = if b = 0 then RF.nan else RF.fin (a / b) := rfl

@[simp] theorem RF.nan_div (x : RF) : RF.nan / x = RF.nan := rfl

@[simp] theorem RF.div_nan (x : RF) : x / RF.nan = RF.nan := by cases x <;> rfl

@[simp] theorem RF.neg_fin (a : ℚ) : -(RF.fin a) = RF.fin (-a) := rfl

@[simp] theorem RF.neg_nan : -RF.nan = RF.nan := rfl

@[simp] theorem RF.add_fin_zero (x : RF) : x + RF.fin 0 = x := by
  cases x <;> simp

theorem RF.finite_iff {x : RF} : x.finite = true ↔ ∃ q, x = RF.fin q := by
  cases x <;> simp [RF.finite]

theorem legacyAux_length {α : Type} [Add α] [Sub α] [Mul α] [Div α] [Neg α]
    [QLit α] (surface : α → α → Vec3 α) (u v dt : α) :
    ∀ (n : ℕ) (pU pV pUV pVV : α),
      (LegacyTs.solveGeodesicAux surface u v dt pU pV pUV pVV n).length = n := by
  intro n
  induction n with
  | zero => intro pU pV pUV pVV; rfl
  | succ n ih =>
    intro pU pV pUV pVV
    simp only [LegacyTs.solveGeodesicAux, List.length_cons, ih]

theorem plane_uBase (c u v : ℚ) : MathTs.uBase (planeSurf c) u v = Vec3.mk 1 0 0 := by
  simp [MathTs.uBase, MathTs.diffVec3WrtU, MathTs.diffWrtU, MathTs.diff,
    MathTs.diffDelta, planeSurf, Vec3.mk.injEq]

theorem plane_vBase (c u v : ℚ) : MathTs.vBase (planeSurf c) u v = Vec3.mk 0 0 1 := by
  simp [MathTs.vBase, MathTs.diffVec3WrtV, MathTs.diffWrtV, MathTs.diff,
    MathTs.diffDelta, planeSurf, Vec3.mk.injEq]

theorem plane_metric (c u v : ℚ) : MathTs.metric (planeSurf c) u v = Mat2.mk 1 0 0 1 := by
  simp [MathTs.metric, plane_uBase, plane_vBase, Vec3.dot]

theorem plane_csf (c u v : ℚ) :
    MathTs.christoffelSymbolsFirstKind (planeSurf c) u v =
      (Mat2.mk 0 0 0 0, Mat2.mk 0 0 0 0) := by
  simp [MathTs.christoffelSymbolsFirstKind, plane_uBase, plane_vBase,
    MathTs.diffVec3WrtU, MathTs.diffVec3WrtV, MathTs.diffWrtU, MathTs.diffWrtV,
    MathTs.diff, MathTs.diffDelta, Vec3.dot]

theorem plane_css (c u v : ℚ) :
    MathTs.christoffelSymbolsSecondKind (planeSurf c) u v =
      (Mat2.mk 0 0 0 0, Mat2.mk 0 0 0 0) := by
  simp [MathTs.christoffelSymbolsSecondKind, plane_metric, plane_csf,
    MathTs.inverseMetric]

theorem plane_geodEq (c a b w1 w2 : ℚ) :
    MathTs.geodesicEquation (planeSurf c) a b w1 w2 = (0, 0) := by
  simp [MathTs.geodesicEquation, plane_css]

/-! ## Claim theorems -/

/-- C1 (code_bug evaluation): the claim states that `solveGeodesic`
(functions.ts lines 368-390) returns exactly the orbit of iterating
`geodesicEulerStep`, the velocity update using the Christoffel symbols at
the current per-iteration point.  The source instead evaluates
`christoffelSymbolsSecondKind(surface, u, v)` at the loop-invariant
*initial* point on every iteration (it tracks `prevU`, `prevV` but never
passes them to the Christoffel call), so on the surface
`(u, v) ↦ (u, u·v, v)` from `(0,0)` with velocity `(1,1)`, `dt = 1`, after
2 steps the returned path already differs from the Euler-step orbit. -/
theorem solveGeodesic_stale_initial_point :
    LegacyTs.solveGeodesic twistSurf 0 0 1 1 1 2 ≠ eulerOrbit twistSurf 0 0 1 1 1 2 := by
  norm_num [LegacyTs.solveGeodesic, LegacyTs.solveGeodesicAux,
    LegacyTs.christoffelSymbolsSecondKind, LegacyTs.christoffelSymbolsFirstKind,
    LegacyTs.metric, MathTs.inverseMetric, MathTs.diffVec3WrtU, MathTs.diffVec3WrtV,
    MathTs.diffWrtU, MathTs.diffWrtV, MathTs.diff, MathTs.diffDelta,
    MathTs.uBase, MathTs.vBase, Vec3.dot, twistSurf, eulerOrbit,
    MathTs.geodesicEulerStep, MathTs.geodesicEquation,
    MathTs.christoffelSymbolsSecondKind, MathTs.christoffelSymbolsFirstKind,
    MathTs.metric, QLit.ofQ]

/-- C6: for every surface function and point, both Christoffel-symbol
structures are exactly symmetric in the two lower indices: for each upper
index `k`, entry `Γ[k][0][1]` is the very same expression as `Γ[k][1][0]`
in the returned structure, for the first and the second kind. -/
theorem christoffel_lower_index_symm {α : Type} [Add α] [Sub α] [Mul α]
    [Div α] [Neg α] [QLit α] (surface : α → α → Vec3 α) (u v : α) :
    ((MathTs.christoffelSymbolsFirstKind surface u v).1.e01 =
      (MathTs.christoffelSymbolsFirstKind surface u v).1.e10) ∧
    ((MathTs.christoffelSymbolsFirstKind surface u v).2.e01 =
      (MathTs.christoffelSymbolsFirstKind surface u v).2.e10) ∧
    ((MathTs.christoffelSymbolsSecondKind surface u v).1.e01 =
      (MathTs.christoffelSymbolsSecondKind surface u v).1.e10) ∧
    ((MathTs.christoffelSymbolsSecondKind surface u v).2.e01 =
      (MathTs.christoffelSymbolsSecondKind surface u v).2.e10) :=
  ⟨rfl, rfl, rfl, rfl⟩

/-- C8: the tangent basis vectors are the componentwise forward-difference
quotients of the surface function, with the fixed constant
`ε = diffDelta = 1e-4 = 1/10000`: `uBase f u v = (f(u+ε, v) − f(u, v))/ε`
and `vBase f u v = (f(u, v+ε) − f(u, v))/ε`. -/
theorem uBase_vBase_forward_difference (f : ℚ → ℚ → Vec3 ℚ) (u v : ℚ) :
    (MathTs.diffDelta : ℚ) = 1/10000 ∧
    MathTs.uBase f u v = Vec3.mk
      (((f (u + 1/10000) v).x - (f u v).x) / (1/10000))
      (((f (u + 1/10000) v).y - (f u v).y) / (1/10000))
      (((f (u + 1/10000) v).z - (f u v).z) / (1/10000)) ∧
    MathTs.vBase f u v = Vec3.mk
      (((f u (v + 1/10000)).x - (f u v).x) / (1/10000))
      (((f u (v + 1/10000)).y - (f u v).y) / (1/10000))
      (((f u (v + 1/10000)).z - (f u v).z) / (1/10000)) :=
  ⟨rfl, rfl, rfl⟩

/-- C10: for every carrier (hence also in the presence of NaN or Infinity
values, which the carrier `RF` and any other instance may contain), every
surface function, initial state and `dt`, the legacy `solveGeodesic`
terminates with a path of exactly `nSteps + 1` points whose first element
is the initial point `(u, v)`; neither fact depends on the numeric values
computed. -/
theorem solveGeodesic_length_and_head {α : Type} [Add α] [Sub α] [Mul α]
    [Div α] [Neg α] [QLit α] (surface : α → α → Vec3 α)
    (u v uVel vVel dt : α) (n : ℕ) :
    (LegacyTs.solveGeodesic surface u v uVel vVel dt n).length = n + 1 ∧
    (LegacyTs.solveGeodesic surface u v uVel vVel dt n).head? = some (u, v) := by
  constructor
  · simp [LegacyTs.solveGeodesic, legacyAux_length]
  · rfl

/-- C3: on the flat-plane surface `(u, v) ↦ (u, c, v)` with any constant
`c`, the metric is the 2x2 identity at every point, every second-kind
Christoffel symbol is exactly zero, and both the Euler and the RK4
geodesic step return exactly the straight-line update
`(u + uVel·dt, v + vVel·dt)` with the velocity unchanged (exact in the
real-arithmetic model, since forward differences are exact on affine
functions). -/
theorem plane_flat_geodesics (c u v uVel vVel dt : ℚ) :
    MathTs.metric (planeSurf c) u v = mat2Id ∧
    MathTs.christoffelSymbolsSecondKind (planeSurf c) u v =
      (Mat2.mk 0 0 0 0, Mat2.mk 0 0 0 0) ∧
    MathTs.geodesicEulerStep (planeSurf c) u v uVel vVel dt =
      ((u + uVel * dt, v + vVel * dt), (uVel, vVel)) ∧
    MathTs.geodesicRK4Step (planeSurf c) u v uVel vVel dt =
      ((u + uVel * dt, v + vVel * dt), (uVel, vVel)) := by
  refine ⟨by simp [plane_metric, mat2Id], plane_css c u v, ?_, ?_⟩
  · simp [MathTs.geodesicEulerStep, plane_geodEq]
  · simp [MathTs.geodesicRK4Step, plane_geodEq, Prod.mk.injEq]
    constructor <;> ring

/-- C5: for every symmetric 2x2 metric matrix with nonzero determinant
`a·c − b²`, the product of the matrix with `inverseMetric` of it is the
2x2 identity (exactly, in the real-arithmetic model), since
`inverseMetric` returns the analytic closed-form inverse. -/
theorem metric_mul_inverseMetric (a b c : ℚ) (h : a * c - b * b ≠ 0) :
    mat2Mul (Mat2.mk a b b c) (MathTs.inverseMetric (Mat2.mk a b b c)) = mat2Id := by
  simp only [mat2Mul, MathTs.inverseMetric, mat2Id, QLit.ofQ_rat, Mat2.mk.injEq]
  refine ⟨?_, ?_, ?_, ?_⟩ <;> field_simp <;> ring

/-- Witness for C5 at the concrete metric `[[2, 1], [1, 1]]` (determinant 1). -/
theorem metric_mul_inverseMetric_witness :
    ((2:ℚ) * 1 - 1 * 1 ≠ 0) ∧
    mat2Mul (Mat2.mk (2:ℚ) 1 1 1) (MathTs.inverseMetric (Mat2.mk (2:ℚ) 1 1 1)) = mat2Id :=
  ⟨by norm_num, metric_mul_inverseMetric 2 1 1 (by norm_num)⟩

/-- C7: `geodesicRK4Step` is exactly the standard RK4 update of the coupled
first-order system `d(position)/dt = velocity`,
`d(velocity)/dt = acceleration(position, velocity)`, with the four staged
acceleration evaluations and weighted averages described by the claim
(see `rk4SpecStep`, which makes exactly four `geodesicEquation`
evaluations). -/
theorem rk4Step_matches_spec (surface : ℚ → ℚ → Vec3 ℚ) (u v uVel vVel dt : ℚ) :
    MathTs.geodesicRK4Step surface u v uVel vVel dt =
      rk4SpecStep surface (u, v) (uVel, vVel) dt := by
  simp only [MathTs.geodesicRK4Step, rk4SpecStep, p2add, p2smul, QLit.ofQ_rat]
  norm_num
  ring_nf
  tauto

theorem uBase_nanAux (surface : RF → RF → Vec3 RF)
    (hs : ∀ a b, surface a b = nanVec3) (u v : RF) :
    MathTs.uBase surface u v = nanVec3 := by
  simp [MathTs.uBase, MathTs.diffVec3WrtU, MathTs.diffWrtU, MathTs.diff, hs, nanVec3]

theorem vBase_nanAux (surface : RF → RF → Vec3 RF)
    (hs : ∀ a b, surface a b = nanVec3) (u v : RF) :
    MathTs.vBase surface u v = nanVec3 := by
  simp [MathTs.vBase, MathTs.diffVec3WrtV, MathTs.diffWrtV, MathTs.diff, hs, nanVec3]

theorem metric_nanAux (surface : RF → RF → Vec3 RF)
    (hs : ∀ a b, surface a b = nanVec3) (u v : RF) :
    MathTs.metric surface u v = nanMat2 := by
  simp [MathTs.metric, uBase_nanAux surface hs, vBase_nanAux surface hs,
    Vec3.dot, nanVec3, nanMat2]

theorem inverseMetric_nanAux : MathTs.inverseMetric nanMat2 = nanMat2 := by
  simp [MathTs.inverseMetric, nanMat2]

theorem csf_nanAux (surface : RF → RF → Vec3 RF)
    (hs : ∀ a b, surface a b = nanVec3) (u v : RF) :
    MathTs.christoffelSymbolsFirstKind surface u v = (nanMat2, nanMat2) := by
  simp [MathTs.christoffelSymbolsFirstKind, uBase_nanAux surface hs,
    vBase_nanAux surface hs, MathTs.diffVec3WrtU, MathTs.diffVec3WrtV,
    MathTs.diffWrtU, MathTs.diffWrtV, MathTs.diff, Vec3.dot, nanVec3, nanMat2]

theorem css_nanAux (surface : RF → RF → Vec3 RF)
    (hs : ∀ a b, surface a b = nanVec3) (u v : RF) :
    MathTs.christoffelSymbolsSecondKind surface u v = (nanMat2, nanMat2) := by
  simp [MathTs.christoffelSymbolsSecondKind, metric_nanAux surface hs,
    csf_nanAux surface hs, inverseMetric_nanAux, nanMat2]

theorem geodEq_nanAux (surface : RF → RF → Vec3 RF)
    (hs : ∀ a b, surface a b = nanVec3) (u v uVel vVel : RF) :
    MathTs.geodesicEquation surface u v uVel vVel = (RF.nan, RF.nan) := by
  simp [MathTs.geodesicEquation, css_nanAux surface hs, nanMat2]

/-- C4 (counterexample): the claim asserts that with an everywhere-NaN
surface and *every* solver selector, `geodesicStep` returns NaN in every
numeric component.  With the Euler selector and finite inputs the returned
*position* is the finite straight-line update `u + uVel·dt`, so the claim
as stated is false at this concrete input. -/
theorem nan_euler_position_not_nan :
    MathTs.geodesicStep nanSurf (RF.fin 0) (RF.fin 0) (RF.fin 1) (RF.fin 1) (RF.fin 1)
      Solver.euler ≠ ((RF.nan, RF.nan), (RF.nan, RF.nan)) := by
  simp [MathTs.geodesicStep, MathTs.geodesicEulerStep,
    geodEq_nanAux nanSurf (fun _ _ => rfl), Prod.mk.injEq]

/-- C4 (amended): when the surface function returns the NaN sentinel at
every point, `uBase`, `vBase`, `metric` and `christoffelSymbolsSecondKind`
return NaN in every numeric component, and `geodesicStep` with the RK4
selector does as well; with the Euler selector the returned velocity is
`(NaN, NaN)` while the returned position is the straight-line update
`(u + uVel·dt, v + vVel·dt)` (NaN only when those inputs make it so).
None of these total functions can throw. -/
theorem nan_propagation_amended (surface : RF → RF → Vec3 RF)
    (hs : ∀ a b, surface a b = nanVec3) (u v uVel vVel dt : RF) :
    MathTs.uBase surface u v = nanVec3 ∧
    MathTs.vBase surface u v = nanVec3 ∧
    MathTs.metric surface u v = nanMat2 ∧
    MathTs.christoffelSymbolsSecondKind surface u v = (nanMat2, nanMat2) ∧
    MathTs.geodesicStep surface u v uVel vVel dt Solver.rk =
      ((RF.nan, RF.nan), (RF.nan, RF.nan)) ∧
    MathTs.geodesicStep surface u v uVel vVel dt Solver.euler =
      ((u + uVel * dt, v + vVel * dt), (RF.nan, RF.nan)) := by
  refine ⟨uBase_nanAux surface hs u v, vBase_nanAux surface hs u v,
    metric_nanAux surface hs u v, css_nanAux surface hs u v, ?_, ?_⟩
  · simp [MathTs.geodesicStep, MathTs.geodesicRK4Step, geodEq_nanAux surface hs]
  · simp [MathTs.geodesicStep, MathTs.geodesicEulerStep, geodEq_nanAux surface hs]

/-- Witness for the amended C4 at the everywhere-NaN surface with finite
inputs `u = v = 0`, `uVel = vVel = dt = 1`. -/
theorem nan_propagation_amended_witness :
    MathTs.uBase nanSurf (RF.fin 0) (RF.fin 0) = nanVec3 ∧
    MathTs.vBase nanSurf (RF.fin 0) (RF.fin 0) = nanVec3 ∧
    MathTs.metric nanSurf (RF.fin 0) (RF.fin 0) = nanMat2 ∧
    MathTs.christoffelSymbolsSecondKind nanSurf (RF.fin 0) (RF.fin 0) = (nanMat2, nanMat2) ∧
    MathTs.geodesicStep nanSurf (RF.fin 0) (RF.fin 0) (RF.fin 1) (RF.fin 1) (RF.fin 1)
      Solver.rk = ((RF.nan, RF.nan), (RF.nan, RF.nan)) ∧
    MathTs.geodesicStep nanSurf (RF.fin 0) (RF.fin 0) (RF.fin 1) (RF.fin 1) (RF.fin 1)
      Solver.euler =
      ((RF.fin 0 + RF.fin 1 * RF.fin 1, RF.fin 0 + RF.fin 1 * RF.fin 1), (RF.nan, RF.nan)) :=
  nan_propagation_amended nanSurf (fun _ _ => rfl)
    (RF.fin 0) (RF.fin 0) (RF.fin 1) (RF.fin 1) (RF.fin 1)

@[simp] theorem RF.finite_fin (q : ℚ) : (RF.fin q).finite = true := rfl

/-- C9: for every surface function, point, `dt` and solver selector, if the
initial velocity is exactly zero and the Christoffel-symbol evaluation
involved in the step is finite (as is the time increment), then
`geodesicStep` returns the unchanged position and zero velocity — the
point stays stationary.  (With zero velocity both RK4 stage points stay at
`(u, v)`, so the only Christoffel evaluation involved is the one at
`(u, v)`.) -/
theorem zero_velocity_stationary (surface : RF → RF → Vec3 RF) (u v dt : RF)
    (hdt : dt.finite = true)
    (hc : csAllFinite (MathTs.christoffelSymbolsSecondKind surface u v) = true)
    (solver : Solver) :
    MathTs.geodesicStep surface u v (RF.fin 0) (RF.fin 0) dt solver =
      ((u, v), (RF.fin 0, RF.fin 0)) := by
  obtain ⟨d, rfl⟩ := RF.finite_iff.mp hdt
  simp only [csAllFinite, Mat2.allFinite, Bool.and_eq_true] at hc
  obtain ⟨⟨⟨⟨h1, h2⟩, h3⟩, h4⟩, ⟨⟨⟨h5, h6⟩, h7⟩, h8⟩⟩ := hc
  obtain ⟨q1, h1⟩ := RF.finite_iff.mp h1
  obtain ⟨q2, h2⟩ := RF.finite_iff.mp h2
  obtain ⟨q3, h3⟩ := RF.finite_iff.mp h3
  obtain ⟨q4, h4⟩ := RF.finite_iff.mp h4
  obtain ⟨q5, h5⟩ := RF.finite_iff.mp h5
  obtain ⟨q6, h6⟩ := RF.finite_iff.mp h6
  obtain ⟨q7, h7⟩ := RF.finite_iff.mp h7
  obtain ⟨q8, h8⟩ := RF.finite_iff.mp h8
  have hge : MathTs.geodesicEquation surface u v (RF.fin 0) (RF.fin 0) =
      (RF.fin 0, RF.fin 0) := by
    simp [MathTs.geodesicEquation, h1, h2, h3, h4, h5, h6, h7, h8]
  cases solver with
  | euler =>
    simp [MathTs.geodesicStep, MathTs.geodesicEulerStep, hge]
  | rk =>
    norm_num [MathTs.geodesicStep, MathTs.geodesicRK4Step, hge]

/-- Witness for C9 on the flat plane over `RF` at `(0,0)` with `dt = 1`
and the RK4 solver. -/
theorem zero_velocity_stationary_witness :
    (RF.fin 1).finite = true ∧
    csAllFinite (MathTs.christoffelSymbolsSecondKind (planeSurf (RF.fin 0))
      (RF.fin 0) (RF.fin 0)) = true ∧
    MathTs.geodesicStep (planeSurf (RF.fin 0)) (RF.fin 0) (RF.fin 0)
      (RF.fin 0) (RF.fin 0) (RF.fin 1) Solver.rk =
      ((RF.fin 0, RF.fin 0), (RF.fin 0, RF.fin 0)) := by
  have hcs : csAllFinite (MathTs.christoffelSymbolsSecondKind (planeSurf (RF.fin 0))
      (RF.fin 0) (RF.fin 0)) = true := by
    norm_num [csAllFinite, Mat2.allFinite, MathTs.christoffelSymbolsSecondKind,
      MathTs.christoffelSymbolsFirstKind, MathTs.metric, MathTs.inverseMetric,
      MathTs.uBase, MathTs.vBase, MathTs.diffVec3WrtU, MathTs.diffVec3WrtV,
      MathTs.diffWrtU, MathTs.diffWrtV, MathTs.diff, MathTs.diffDelta,
      Vec3.dot, planeSurf]
  exact ⟨rfl, hcs,
    zero_velocity_stationary (planeSurf (RF.fin 0)) (RF.fin 0) (RF.fin 0)
      (RF.fin 1) rfl hcs Solver.rk⟩

theorem stepLens_nil (surface : ℚ → ℚ → Vec3 ℚ) (sqrtFn : ℚ → ℚ) (p : ℚ × ℚ) :
    MathTs.stepLens surface sqrtFn p [] = [] := rfl

theorem stepLens_cons (surface : ℚ → ℚ → Vec3 ℚ) (sqrtFn : ℚ → ℚ)
    (p q : ℚ × ℚ) (rest : List (ℚ × ℚ)) :
    MathTs.stepLens surface sqrtFn p (q :: rest) =
      MathTs.stepLen surface sqrtFn p q :: MathTs.stepLens surface sqrtFn q rest := rfl

theorem capAux_invariant (surface : ℚ → ℚ → Vec3 ℚ) (sqrtFn : ℚ → ℚ)
    (dt L : ℚ) (hL : L ≠ 0) :
    ∀ (n : ℕ) (u v uVel vVel acc : ℚ), acc < L →
      acc + ((MathTs.stepLens surface sqrtFn (u, v)
        (MathTs.solveGeodesicCapAux surface sqrtFn dt L u v uVel vVel acc n)).dropLast).sum < L := by
  intro n
  induction n with
  | zero =>
    intro u v uVel vVel acc hacc
    simpa [MathTs.solveGeodesicCapAux, stepLens_nil] using hacc
  | succ n ih =>
    intro u v uVel vVel acc hacc
    simp only [MathTs.solveGeodesicCapAux]
    by_cases hstop : L ≠ 0 ∧ L ≤ acc +
        MathTs.stepLen surface sqrtFn (u, v) (MathTs.geodesicEulerStep surface u v uVel vVel dt).1
    · rw [if_pos hstop]
      rw [stepLens_cons, stepLens_nil]
      simpa using hacc
    · rw [if_neg hstop]
      have hlt : acc + MathTs.stepLen surface sqrtFn (u, v)
          (MathTs.geodesicEulerStep surface u v uVel vVel dt).1 < L := by
        rcases not_and_or.mp hstop with h | h
        · exact absurd hL h
        · exact lt_of_not_le h
      have hrec := ih (MathTs.geodesicEulerStep surface u v uVel vVel dt).1.1
        (MathTs.geodesicEulerStep surface u v uVel vVel dt).1.2
        (MathTs.geodesicEulerStep surface u v uVel vVel dt).2.1
        (MathTs.geodesicEulerStep surface u v uVel vVel dt).2.2
        _ hlt
      simp only [stepLens_cons]
      cases hrest : MathTs.solveGeodesicCapAux surface sqrtFn dt L
          (MathTs.geodesicEulerStep surface u v uVel vVel dt).1.1
          (MathTs.geodesicEulerStep surface u v uVel vVel dt).1.2
          (MathTs.geodesicEulerStep surface u v uVel vVel dt).2.1
          (MathTs.geodesicEulerStep surface u v uVel vVel dt).2.2
          (acc + MathTs.stepLen surface sqrtFn (u, v)
            (MathTs.geodesicEulerStep surface u v uVel vVel dt).1) n with
      | nil => simpa [stepLens_nil] using hacc
      | cons p rest =>
        rw [hrest] at hrec
        simp only [stepLens_cons] at hrec ⊢
        simp only [List.dropLast_cons₂, List.sum_cons] at hrec ⊢
        linarith

theorem capAux_length_nocap (surface : ℚ → ℚ → Vec3 ℚ) (sqrtFn : ℚ → ℚ) (dt : ℚ) :
    ∀ (n : ℕ) (u v uVel vVel acc : ℚ),
      (MathTs.solveGeodesicCapAux surface sqrtFn dt 0 u v uVel vVel acc n).length = n := by
  intro n
  induction n with
  | zero => intro u v uVel vVel acc; rfl
  | succ n ih =>
    intro u v uVel vVel acc
    simp only [MathTs.solveGeodesicCapAux]
    rw [if_neg (by simp)]
    simp [ih]

/-- C2 (spec-modelled, the 8-argument `solveGeodesic` of math.ts is absent
from `src/`): for the bounded-length batch solve with cap `L`: when
`L > 0` the metric-weighted lengths of all the returned path's steps but
the last sum to strictly less than `L` — i.e. the cumulative length
exceeds `L` by at most the final step's overshoot, as the first step that
reaches the cap is still appended and iteration halts; the path always
contains at least the initial point (its head is `(u, v)`); and a cap of
exactly `0` disables the length check, so the path has the full
`nSteps + 1` points. -/
theorem solveGeodesic_length_cap (surface : ℚ → ℚ → Vec3 ℚ) (sqrtFn : ℚ → ℚ)
    (u v uVel vVel dt : ℚ) (n : ℕ) (L : ℚ) :
    (0 < L →
      ((MathTs.stepLens surface sqrtFn (u, v)
        ((MathTs.solveGeodesicCap surface sqrtFn u v uVel vVel dt n L).tail)).dropLast).sum < L) ∧
    (MathTs.solveGeodesicCap surface sqrtFn u v uVel vVel dt n L).head? = some (u, v) ∧
    (L = 0 → (MathTs.solveGeodesicCap surface sqrtFn u v uVel vVel dt n L).length = n + 1) := by
  refine ⟨?_, rfl, ?_⟩
  · intro hL
    have hinv := capAux_invariant surface sqrtFn dt L (ne_of_gt hL) n u v uVel vVel 0 hL
    simpa [MathTs.solveGeodesicCap] using hinv
  · intro h0
    subst h0
    simp [MathTs.solveGeodesicCap, capAux_length_nocap]

/-- Witness for C2 on the flat plane with `sqrtFn = id`, start `(0, 0)`,
velocity `(1, 0)`, `dt = 1`, 3 steps, cap `L = 1 > 0`. -/
theorem solveGeodesic_length_cap_witness :
    (0 : ℚ) < 1 ∧
    ((MathTs.stepLens (planeSurf 0) id (0, 0)
      ((MathTs.solveGeodesicCap (planeSurf 0) id 0 0 1 0 1 3 1).tail)).dropLast).sum < 1 ∧
    (MathTs.solveGeodesicCap (planeSurf 0) id 0 0 1 0 1 3 1).head? = some (0, 0) :=
  ⟨by norm_num,
   (solveGeodesic_length_cap (planeSurf 0) id 0 0 1 0 1 3 1).1 (by norm_num),
   (solveGeodesic_length_cap (planeSurf 0) id 0 0 1 0 1 3 1).2.1⟩
